import Mathlib

/-!
Shallow embedding of `src/main.py` (the mkssh SSH-configuration generator).

The program runs on Windows (all its path constants use drive letters and
`os.sep = '\\'`), so the `os.path` functions it calls are the ones from
CPython's `ntpath` module; they are embedded below over `List Char`.
Environment-dependent pieces (`os.path.expanduser`, the directory of the
script, `%USERPROFILE%`) are collected in an `Env` parameter, and the
filesystem's answer to `shutil.copy2` (does the source exist and is it
readable) is a predicate parameter `fs`.  Python exceptions are modelled
with `Except`; Python `str | None` values with `Option`.
-/

namespace Mkssh

/-- Python strings, modelled as lists of characters. -/
abbrev PyStr := List Char

/-- Character list of a Lean string literal. -/
def S (s : String) : PyStr := s.toList

/-- Windows path-separator test: `os.sep = '\\'`, `os.altsep = '/'`. -/
def isSepChar (c : Char) : Bool := c == '\\' || c == '/'

/-- Whether the first character, if any, is a path separator. -/
def headIsSep (p : PyStr) : Bool :=
  match p with
  | c :: _ => isSepChar c
  | [] => false

/-- Python `s.startswith(c)` for a single character `c`. -/
def headIs (c : Char) (p : PyStr) : Bool :=
  match p with
  | d :: _ => d == c
  | [] => false

/-- `str.lower` (ASCII letters; the inputs in this program are ASCII). -/
def strLower (p : PyStr) : PyStr := p.map Char.toLower

/-- `str.upper` (ASCII letters). -/
def strUpper (p : PyStr) : PyStr := p.map Char.toUpper

/-- Replace `os.altsep` by `os.sep`, the normalisation `ntpath` applies
before scanning for separators. -/
def normSep (p : PyStr) : PyStr := p.map (fun c => if c == '/' then '\\' else c)

/-- `normp.find(sep, start)` of `ntpath`: index of the first separator at
position ≥ `start` (searching the separator in the normalised path is the
same as testing `isSepChar` in the original one). -/
def findSepFrom (p : PyStr) (start : Nat) : Option Nat :=
  match (p.drop start).findIdx? (fun c => isSepChar c) with
  | some i => some (start + i)
  | none => none

/-- `ntpath.splitdrive`: split a Windows path into `(drive, rest)`.
Drive-letter paths (`X:...`) give `(X:, ...)`; UNC paths
(`\\server\share\...`) give the `\\server\share` part as the drive;
everything else gives an empty drive.  Faithful to CPython 3.11's
`ntpath.splitdrive`. -/
def splitdrive : PyStr → PyStr × PyStr
  | c0 :: c1 :: rest =>
    if isSepChar c0 && isSepChar c1 && !headIsSep rest then
      -- UNC path \\machine\mountpoint\...
      match findSepFrom (c0 :: c1 :: rest) 2 with
      | none => ([], c0 :: c1 :: rest)
      | some index =>
        match findSepFrom (c0 :: c1 :: rest) (index + 1) with
        | none => (c0 :: c1 :: rest, [])
        | some index2 =>
          if index2 == index + 1 then ([], c0 :: c1 :: rest)
          else ((c0 :: c1 :: rest).take index2, (c0 :: c1 :: rest).drop index2)
    else if c1 == ':' then ([c0, c1], rest)
    else ([], c0 :: c1 :: rest)
  | p => ([], p)

/-- The tail of `r` after its last separator and the part before it:
`ntpath.split`'s scan `while i and p[i-1] not in seps: i -= 1`. -/
def rsplitSep (r : PyStr) : PyStr × PyStr :=
  ((r.reverse.dropWhile (fun c => !isSepChar c)).reverse,
   (r.reverse.takeWhile (fun c => !isSepChar c)).reverse)

/-- `head.rstrip(seps)` of `ntpath.split`. -/
def rstripSeps (l : PyStr) : PyStr :=
  (l.reverse.dropWhile (fun c => isSepChar c)).reverse

/-- `ntpath.split`: `(head, tail)` where `tail` is everything after the
last separator of the drive-less rest, and `head` is the drive plus the
part before it with trailing separators stripped (unless that would make
it empty). -/
def py_split (p : PyStr) : PyStr × PyStr :=
  let dr := splitdrive p
  let ht := rsplitSep dr.2
  let head2 := rstripSeps ht.1
  (dr.1 ++ (if head2.isEmpty then ht.1 else head2), ht.2)

/-- `os.path.dirname` on Windows. -/
def py_dirname (p : PyStr) : PyStr := (py_split p).1

/-- `os.path.basename` on Windows. -/
def py_basename (p : PyStr) : PyStr := (py_split p).2

/-- `ntpath.isabs` (CPython ≤ 3.12): the drive-less rest starts with a
separator. -/
def py_isabs (p : PyStr) : Bool := headIsSep (splitdrive p).2

/-- `ntpath.splitroot` (CPython 3.12): `(drive, root, rest)`.  Used by
`ntpath.join`. -/
def splitroot : PyStr → PyStr × PyStr × PyStr
  | [] => ([], [], [])
  | c0 :: tl =>
    if isSepChar c0 then
      match tl with
      | c1 :: _ =>
        if isSepChar c1 then
          -- UNC drives, e.g. \\server\share or \\?\UNC\server\share
          let start := if strUpper (normSep ((c0 :: tl).take 8)) = S "\\\\?\\UNC\\" then 8 else 2
          match findSepFrom (c0 :: tl) start with
          | none => (c0 :: tl, [], [])
          | some index =>
            match findSepFrom (c0 :: tl) (index + 1) with
            | none => (c0 :: tl, [], [])
            | some index2 =>
              ((c0 :: tl).take index2, ((c0 :: tl).drop index2).take 1, (c0 :: tl).drop (index2 + 1))
        else ([], [c0], tl)
      | [] => ([], [c0], [])
    else
      match tl with
      | c1 :: tl2 =>
        if c1 == ':' then
          match tl2 with
          | c2 :: tl3 => if isSepChar c2 then ([c0, c1], [c2], tl3) else ([c0, c1], [], tl2)
          | [] => ([c0, c1], [], [])
        else ([], [], c0 :: tl)
      | [] => ([], [], c0 :: tl)

/-- The relative-append step of `ntpath.join`: add a separator after the
accumulated path part unless it is empty or already ends in one, then
append the new part. -/
def joinRel (rp pp : PyStr) : PyStr :=
  (if !rp.isEmpty && !(match rp.getLast? with | some c => isSepChar c | none => false)
   then rp ++ ['\\'] else rp) ++ pp

/-- The final assembly step of `ntpath.join`: insert a separator between a
UNC drive and a non-absolute path part. -/
def finalizeJoin (d root pth : PyStr) : PyStr :=
  if !pth.isEmpty && root.isEmpty && !d.isEmpty &&
     !(match d.getLast? with | some c => isSepChar c || c == ':' | none => false)
  then d ++ '\\' :: pth
  else d ++ root ++ pth

/-- `ntpath.join` for two arguments, faithful to CPython 3.12 (including
the rule that a second argument carrying a different drive discards the
first argument entirely). -/
def py_join (a b : PyStr) : PyStr :=
  let r := splitroot a
  let q := splitroot b
  let res :=
    if !q.2.1.isEmpty then
      -- second path is rooted
      ((if !q.1.isEmpty || r.1.isEmpty then q.1 else r.1), q.2.1, q.2.2)
    else if !q.1.isEmpty && q.1 ≠ r.1 then
      if strLower q.1 ≠ strLower r.1 then
        -- different drives: ignore the first path entirely
        (q.1, ([] : PyStr), q.2.2)
      else
        -- same drive, different case
        (q.1, r.2.1, joinRel r.2.2 q.2.2)
    else
      (r.1, r.2.1, joinRel r.2.2 q.2.2)
  finalizeJoin res.1 res.2.1 res.2.2

/-- Python truthiness of a `str | None` value: `None` and `''` are falsy. -/
def pyTruthy : Option PyStr → Bool
  | none => false
  | some s => !s.isEmpty

/-- Rendering of a `str | None` value inside an f-string: `None` prints as
the four letters `None`. -/
def pyFStr : Option PyStr → PyStr
  | none => S "None"
  | some s => s

/-- Python `a or b` on `str | None` values, with the final fallback `b`
already known to be a string. -/
def pyOr (a b : Option PyStr) : Option PyStr := if pyTruthy a then a else b

/-- The Python exceptions the embedded code can raise. -/
inductive PyErr where
  | attributeError
  | valueError
  | ioError
deriving DecidableEq

/-- The environment the program runs in: `os.path.expanduser`, the
directory holding the script (`CUDIR`), and `os.environ.get('USERPROFILE')
or ''`. -/
structure Env where
  expanduser : PyStr → PyStr
  cudir : PyStr
  userprofile : PyStr

/-- `SSHKEY_OUT_DIR = os.path.join('C:\\', '0', 'sshkey')`. -/
def SSHKEY_OUT_DIR : PyStr := py_join (py_join (S "C:\\") (S "0")) (S "sshkey")

/-- `SSHKEY_KEEP_DIR = os.path.join(CUDIR, 'sshkey')`. -/
def SSHKEY_KEEP_DIR (env : Env) : PyStr := py_join env.cudir (S "sshkey")

/-- `USER_SSH_CFG_FILE = os.path.join(USERPROFILE, '.ssh', 'config')`. -/
def USER_SSH_CFG_FILE (env : Env) : PyStr :=
  py_join (py_join env.userprofile (S ".ssh")) (S "config")

/-- `os.linesep` on Windows. -/
def LS : PyStr := S "\r\n"

/-- `is_absolute_path` of `src/main.py`. -/
def is_absolute_path (name : PyStr) : Bool := !name.isEmpty && py_isabs name

/-- Lines 191–195 of `GenCmd.trans_keyfile_path`: expand a leading `~`,
then anchor a relative reference at `SSHKEY_KEEP_DIR`. -/
def resolveKeyPath (env : Env) (s : PyStr) : PyStr :=
  let p1 := if headIs '~' s then env.expanduser s else s
  if is_absolute_path p1 then p1 else py_join (SSHKEY_KEEP_DIR env) p1

/-- `GenCmd.trans_keyfile_path`.  The argument is the raw
`conf.get('IdentityFile')`, which may be `None`: calling
`None.startswith('~')` raises `AttributeError`.  `shutil.copy2` raises an
`IOError`-class error when the source is missing or unreadable, modelled
by the predicate `fs`; the copy's destination is
`os.path.join(SSHKEY_OUT_DIR, basename)` and becomes the returned path. -/
def trans_keyfile_path (env : Env) (fs : PyStr → Bool) :
    Option PyStr → Except PyErr PyStr
  | none => .error .attributeError
  | some s =>
    let p2 := resolveKeyPath env s
    if py_dirname p2 ≠ SSHKEY_OUT_DIR then
      if fs p2 then .ok (py_join SSHKEY_OUT_DIR (py_basename p2))
      else .error .ioError
    else .ok p2

/-- The normalised per-host record built by `GenCmd.__init__`
(`_connection_config` and `_proxy_config` together, exposed through the
property accessors, all typed `str | None`). -/
structure HostRecord where
  host : Option PyStr := none
  port : Option PyStr := none
  user : Option PyStr := none
  password : Option PyStr := none
  keyfile : Option PyStr := none
  auth_type : Option PyStr := none
  proxy_type : Option PyStr := none
  proxy_host : Option PyStr := none
  proxy_port : Option PyStr := none
  proxy_user : Option PyStr := none
  proxy_password : Option PyStr := none
deriving DecidableEq

/-- `GenCmd.__init__`: build the host record from one registry section
(the section name is `sectionName`; `conf` is the section's mapping).  The
key-file transform runs unconditionally on `conf.get('IdentityFile')`;
afterwards the auth type, when falsy, is inferred: `publickey` if the key
file is truthy, else `password` if the password is truthy. -/
def genCmdInit (env : Env) (fs : PyStr → Bool) (sectionName : PyStr)
    (conf : String → Option PyStr) : Except PyErr HostRecord :=
  match trans_keyfile_path env fs (conf "IdentityFile") with
  | .error e => .error e
  | .ok kf =>
    let r0 : HostRecord := {
      host := pyOr (pyOr (conf "HostName") (conf "Host")) (some sectionName),
      port := conf "Port",
      user := conf "User",
      password := conf "Password",
      keyfile := some kf,
      auth_type := conf "AuthType",
      proxy_type := conf "ProxyType",
      proxy_host := conf "ProxyHost",
      proxy_port := conf "ProxyPort",
      proxy_user := conf "ProxyUser",
      proxy_password := conf "ProxyPassword" }
    .ok (if !pyTruthy r0.auth_type then
           if pyTruthy r0.keyfile then { r0 with auth_type := some (S "publickey") }
           else if pyTruthy r0.password then { r0 with auth_type := some (S "password") }
           else r0
         else r0)

/-- The Tera Term executable literal of `GenCmd.tth`. -/
def tthExefile : PyStr := S "\"%programfiles(x86)%\\teraterm5\\ttermpro.exe\""

/-- The `proxyarg` local of `GenCmd.tth` (lines 212–219). -/
def tthProxyArg (r : HostRecord) : PyStr :=
  if pyTruthy r.proxy_type ∧ r.proxy_type ≠ some (S "none") then
    if pyTruthy r.proxy_user then
      S "-proxy " ++ pyFStr r.proxy_type ++ S "://" ++ pyFStr r.proxy_user ++ S ":"
        ++ pyFStr r.proxy_password ++ S "@" ++ pyFStr r.proxy_host ++ S ":" ++ pyFStr r.proxy_port
    else
      S "-proxy " ++ pyFStr r.proxy_type ++ S "://" ++ pyFStr r.proxy_host ++ S ":" ++ pyFStr r.proxy_port
  else S "-noproxy"

/-- The `autharg` local of `GenCmd.tth` (lines 220–229): base clause plus
the three independent `+=` appends. -/
def tthAuthArg (r : HostRecord) : PyStr :=
  (if pyTruthy r.auth_type then S "/auth=" ++ pyFStr r.auth_type else S "/ask4passwd")
  ++ (if pyTruthy r.user then S " /user=" ++ pyFStr r.user else [])
  ++ (if pyTruthy r.keyfile then S " /keyfile=\"" ++ pyFStr r.keyfile ++ S "\"" else [])
  ++ (if pyTruthy r.password then S " /password=\"" ++ pyFStr r.password ++ S "\"" else [])

/-- `GenCmd.tth`: the full text written to the Tera Term batch file. -/
def tth (r : HostRecord) : PyStr :=
  S "@echo off" ++ LS
  ++ S "start \"\" " ++ tthExefile ++ S " " ++ tthProxyArg r ++ S " "
  ++ pyFStr r.host ++ S ":" ++ pyFStr r.port
  ++ S " /ssh " ++ tthAuthArg r ++ S " & " ++ LS

/-- `str.rpartition('.')` as used by `trans_putty_keyfile_name`:
`(before-last-dot, sep, after-last-dot)`, or `('', '', s)` when there is
no dot. -/
def rpartitionDot (l : PyStr) : PyStr × PyStr × PyStr :=
  let after := l.reverse.takeWhile (fun c => c != '.')
  if after.length = l.length then ([], [], l)
  else (((l.reverse.dropWhile (fun c => c != '.')).drop 1).reverse, ['.'], after.reverse)

/-- `GenCmd.trans_putty_keyfile_name`: raise `ValueError` on an empty
input; keep a single-dot dotfile name whole and append `.ppk`; otherwise
drop the extension after the last dot (if any) and append `.ppk`; rejoin
with the directory. -/
def trans_putty_keyfile_name (input_name : PyStr) : Except PyErr PyStr :=
  if input_name.isEmpty then .error .valueError
  else
    let filename := py_basename input_name
    let filedir := py_dirname input_name
    let new_filename :=
      if headIs '.' filename && filename.count '.' == 1 then filename ++ S ".ppk"
      else
        let bse := rpartitionDot filename
        (if !bse.2.1.isEmpty then bse.1 else filename) ++ S ".ppk"
    .ok (py_join filedir new_filename)

/-- The PuTTY executable literal of `GenCmd.pth`. -/
def pthExefile : PyStr := S "\"%programfiles%\\PuTTY\\putty.exe\""

/-- The corkscrew helper path literal of `GenCmd.pth`. -/
def corkExe : PyStr :=
  S "C:\\Program Files\\Tencent\\WeTERM\\resources\\external\\win32\\x86\\corkscrew.exe"

/-- `cork_exe.replace("\\", "\\\\")`: double every backslash. -/
def doubleBackslashes (p : PyStr) : PyStr :=
  p.flatMap (fun c => if c == '\\' then ['\\', '\\'] else [c])

/-- The `proxyarg` local of `GenCmd.pth` (lines 274–281): only the `http`
proxy type produces a `-proxycmd` clause; everything else yields the empty
clause. -/
def pthProxyArg (r : HostRecord) : PyStr :=
  if pyTruthy r.proxy_type ∧ r.proxy_type = some (S "http") then
    S " -proxycmd \"\\\"" ++ doubleBackslashes corkExe ++ S "\\\" "
      ++ pyFStr r.proxy_host ++ S " " ++ pyFStr r.proxy_port ++ S " %%host %%port\""
  else []

/-- `GenCmd.pth`: the full text written to the PuTTY batch file.  The
`CORKSCREW_AUTH` line is emitted, before the launch line, exactly when the
proxy type is `http` and a proxy user is truthy.  The key-file clause runs
the filename transform, which can only raise on an empty name (guarded by
the truthiness test). -/
def pth (r : HostRecord) : Except PyErr PyStr :=
  let cred :=
    if (pyTruthy r.proxy_type ∧ r.proxy_type = some (S "http")) ∧ pyTruthy r.proxy_user then
      S "set CORKSCREW_AUTH=" ++ pyFStr r.proxy_user ++ S ":" ++ pyFStr r.proxy_password ++ LS
    else []
  let a1 := if pyTruthy r.user then S " -l " ++ pyFStr r.user else []
  match (if pyTruthy r.keyfile
         then (trans_putty_keyfile_name (pyFStr r.keyfile)).map some
         else .ok none) with
  | .error e => .error e
  | .ok kopt =>
    let a2 := match kopt with
      | some k => S " -i \"" ++ k ++ S "\""
      | none => []
    let a3 := if pyTruthy r.password then S " -pw \"" ++ pyFStr r.password ++ S "\"" else []
    .ok (S "@echo off" ++ LS ++ cred
         ++ S "start \"\" " ++ pthExefile ++ S " -ssh -noshare " ++ pthProxyArg r
         ++ S " " ++ (a1 ++ a2 ++ a3)
         ++ S " -P " ++ pyFStr r.port ++ S " " ++ pyFStr r.host ++ S " & " ++ LS)

/-- `FixUpper.get`: the `upper` section of the casing lookup file, as
parsed by `configparser` (stored option names are already passed through
`optionxform`, i.e. lower-cased; `has_option`/`get` lower-case the queried
option the same way).  A key present in the mapping returns its stored
display casing; an absent key is returned unchanged. -/
def fixUpperGet (upper : PyStr → Option PyStr) (opt : PyStr) : PyStr :=
  match upper (strLower opt) with
  | some v => v
  | none => opt

/-- The observable filesystem/stdout effects of the tail of `main`
(lines 432–443). -/
inductive FsEvent where
  | copyAttempt (src dst : PyStr)
  | printMsg (msg : PyStr)
  | writeFile (path : PyStr) (lines : List PyStr)
deriving DecidableEq

/-- Zero-padded two-digit rendering of a number (`%m %d %H %M %S`). -/
def pad2 (n : Nat) : PyStr := if n < 10 then '0' :: S (toString n) else S (toString n)

/-- Zero-padded four-digit rendering of a number (`%Y`). -/
def pad4 (n : Nat) : PyStr :=
  if n < 10 then S "000" ++ S (toString n)
  else if n < 100 then S "00" ++ S (toString n)
  else if n < 1000 then '0' :: S (toString n)
  else S (toString n)

/-- A wall-clock instant, as far as `strftime` needs one. -/
structure DateTimeVal where
  year : Nat
  month : Nat
  day : Nat
  hour : Nat
  minute : Nat
  second : Nat

/-- `datetime.now().strftime('%Y%m%d-%H%M%S')`. -/
def strftimeTs (t : DateTimeVal) : PyStr :=
  pad4 t.year ++ pad2 t.month ++ pad2 t.day ++ S "-"
    ++ pad2 t.hour ++ pad2 t.minute ++ pad2 t.second

/-- Lines 432–443 of `main`: before overwriting the live config, if a file
already exists there (`isfile`), attempt `shutil.copy2` to the timestamped
backup path; a failing copy (`copyFails`, with exception text `errText`)
is caught and reported as a warning; either way the live target is then
written with the accumulated lines. -/
def mainWriteUserCfg (env : Env) (isfile copyFails : Bool) (now : DateTimeVal)
    (errText : PyStr) (lines : List PyStr) : List FsEvent :=
  (if isfile then
     FsEvent.copyAttempt (USER_SSH_CFG_FILE env)
         (USER_SSH_CFG_FILE env ++ S ".bak-" ++ strftimeTs now) ::
       (if copyFails then
          [FsEvent.printMsg (S "Warning: failed to backup " ++ USER_SSH_CFG_FILE env
             ++ S ": " ++ errText)]
        else
          [FsEvent.printMsg (S "Backup created: " ++ USER_SSH_CFG_FILE env
             ++ S ".bak-" ++ strftimeTs now)])
   else [])
  ++ [FsEvent.writeFile (USER_SSH_CFG_FILE env) lines]

/-- Whether `needle` occurs at the very start of `hay`. -/
def startsWithStr : PyStr → PyStr → Bool
  | [], _ => true
  | _ :: _, [] => false
  | a :: ns, b :: bs => a == b && startsWithStr ns bs

/-- Whether `needle` occurs as a contiguous run somewhere in `hay`. -/
def containsStr (needle : PyStr) : PyStr → Bool
  | [] => needle.isEmpty
  | c :: rest => startsWithStr needle (c :: rest) || containsStr needle rest

/-- Everything up to and including the last dot of a name. -/
def keepThroughLastDot (l : PyStr) : PyStr :=
  (l.reverse.dropWhile (fun c => c != '.')).reverse

/-- The PuTTY key-file naming rule in the words of the specification: a
dotfile name with exactly one dot in total keeps its name and gains
`.ppk`; otherwise a name containing a dot has the suffix after its last
dot replaced by `ppk`, and a name without a dot gains `.ppk`. -/
def specPuttyFileName (filename : PyStr) : PyStr :=
  if headIs '.' filename = true ∧ filename.count '.' = 1 then filename ++ S ".ppk"
  else if '.' ∈ filename then keepThroughLastDot filename ++ S "ppk"
  else filename ++ S ".ppk"

/-- The Tera-Term proxy clause in the words of the specification ("set" is
read as Python truthiness — present and non-empty — which is the test the
code performs). -/
def specTthProxyClause (r : HostRecord) : PyStr :=
  if pyTruthy r.proxy_type = false ∨ r.proxy_type = some (S "none") then S "-noproxy"
  else if pyTruthy r.proxy_user then
    S "-proxy " ++ pyFStr r.proxy_type ++ S "://" ++ pyFStr r.proxy_user ++ S ":"
      ++ pyFStr r.proxy_password ++ S "@" ++ pyFStr r.proxy_host ++ S ":" ++ pyFStr r.proxy_port
  else
    S "-proxy " ++ pyFStr r.proxy_type ++ S "://" ++ pyFStr r.proxy_host ++ S ":" ++ pyFStr r.proxy_port

/-- The Tera-Term auth clause in the words of the specification: the base
clause, then `/user=`, `/keyfile=`, `/password=` appended independently,
in that fixed order, space-separated. -/
def specTthAuthClause (r : HostRecord) : PyStr :=
  (if pyTruthy r.auth_type then S "/auth=" ++ pyFStr r.auth_type else S "/ask4passwd")
  ++ (if pyTruthy r.user then S " /user=" ++ pyFStr r.user else [])
  ++ (if pyTruthy r.keyfile then S " /keyfile=\"" ++ pyFStr r.keyfile ++ S "\"" else [])
  ++ (if pyTruthy r.password then S " /password=\"" ++ pyFStr r.password ++ S "\"" else [])

/-- A concrete environment for witnesses: identity `expanduser`, empty
script directory and user profile. -/
def env0 : Env := { expanduser := fun s => s, cudir := [], userprofile := [] }

/-- A filesystem on which every copy source exists. -/
def fsAll : PyStr → Bool := fun _ => true

/-- The variant-A proxy example of the specification: proxy type
`socks5`, host `p.example`, port `1080`, no proxy user. -/
def tthSocksRec : HostRecord :=
  { proxy_type := some (S "socks5"), proxy_host := some (S "p.example"),
    proxy_port := some (S "1080") }

/-- The same record with the literal proxy type `none`. -/
def tthNoneRec : HostRecord := { tthSocksRec with proxy_type := some (S "none") }

/-- The PuTTY script text generated for the `socks5` example record. -/
def pthSocksOut : PyStr := (pth tthSocksRec).toOption.getD []

/-- An `http`-proxy record with a proxy user, for witnesses. -/
def rHttpW : HostRecord :=
  { proxy_type := some (S "http"), proxy_host := some (S "p.example"),
    proxy_port := some (S "8080"), proxy_user := some (S "u"),
    proxy_password := some (S "pw") }

/-- A registry section carrying only an `IdentityFile`. -/
def c1Conf : String → Option PyStr :=
  fun k => if k = "IdentityFile" then some (S "id_rsa") else none

/-- The host record `GenCmd.__init__` builds from `c1Conf` under `env0`. -/
def c1Rec : HostRecord :=
  { host := some (S "h1"), keyfile := some (S "C:\\0\\sshkey\\id_rsa"),
    auth_type := some (S "publickey") }

/-- A one-entry casing lookup: `hostname ↦ HostName`. -/
def c10Upper : PyStr → Option PyStr :=
  fun k => if k = S "hostname" then some (S "HostName") else none

/-- A concrete timestamp for witnesses. -/
def dt0 : DateTimeVal := ⟨2026, 10, 12, 3, 4, 5⟩

/-- The part of the PuTTY launch line that follows the proxy clause:
auth/key/password clauses, port and host (`kopt` is the already-converted
key-file name, if any). -/
def pthTail (r : HostRecord) (kopt : Option PyStr) : PyStr :=
  S " " ++ ((if pyTruthy r.user then S " -l " ++ pyFStr r.user else [])
    ++ (match kopt with
        | some k => S " -i \"" ++ k ++ S "\""
        | none => [])
    ++ (if pyTruthy r.password then S " -pw \"" ++ pyFStr r.password ++ S "\"" else []))
  ++ S " -P " ++ pyFStr r.port ++ S " " ++ pyFStr r.host ++ S " & " ++ LS

/-! ## Helper lemmas -/

lemma takeWhile_append_sat {q : Char → Bool} (xs ys : PyStr) (h : ∀ c ∈ xs, q c = true) :
    (xs ++ ys).takeWhile q = xs ++ ys.takeWhile q := by
  induction xs with
  | nil => simp
  | cons c tl ih =>
    have hc : q c = true := h c (by simp)
    simp [List.takeWhile_cons, hc, ih (fun d hd => h d (List.mem_cons_of_mem c hd))]

lemma dropWhile_append_sat {q : Char → Bool} (xs ys : PyStr) (h : ∀ c ∈ xs, q c = true) :
    (xs ++ ys).dropWhile q = ys.dropWhile q := by
  induction xs with
  | nil => simp
  | cons c tl ih =>
    have hc : q c = true := h c (by simp)
    simp [List.dropWhile_cons, hc, ih (fun d hd => h d (List.mem_cons_of_mem c hd))]

lemma mem_takeWhile_sat {q : Char → Bool} {l : PyStr} {c : Char}
    (h : c ∈ l.takeWhile q) : q c = true := by
  induction l with
  | nil => simp [List.takeWhile] at h
  | cons d tl ih =>
    rw [List.takeWhile_cons] at h
    by_cases hd : q d = true
    · rw [if_pos hd] at h
      rcases List.mem_cons.mp h with h1 | h2
      · exact h1 ▸ hd
      · exact ih h2
    · rw [if_neg hd] at h
      exact absurd h (List.not_mem_nil c)

lemma takeWhile_length_eq_iff {q : Char → Bool} (l : PyStr) :
    (l.takeWhile q).length = l.length ↔ ∀ c ∈ l, q c = true := by
  induction l with
  | nil => simp
  | cons c tl ih =>
    rw [List.takeWhile_cons]
    by_cases hc : q c = true
    · rw [if_pos hc]
      simp only [List.length_cons, Nat.add_right_cancel_iff, List.mem_cons]
      constructor
      · intro h d hd
        rcases hd with h1 | h2
        · exact h1 ▸ hc
        · exact (ih.mp h) d h2
      · intro h
        exact ih.mpr (fun d hd => h d (Or.inr hd))
    · rw [if_neg hc]
      constructor
      · intro h
        exact absurd h.symm (by simp)
      · intro h
        exact absurd (h c (List.mem_cons_self c tl)) hc

lemma dropWhile_ne_cons (a : Char) (l : PyStr) (h : a ∈ l) :
    ∃ t, l.dropWhile (fun c => c != a) = a :: t := by
  induction l with
  | nil => exact absurd h (List.not_mem_nil a)
  | cons c tl ih =>
    by_cases hca : c = a
    · subst hca
      exact ⟨tl, by simp [List.dropWhile_cons]⟩
    · have hne : (c != a) = true := bne_iff_ne.mpr hca
      rw [List.dropWhile_cons, if_pos hne]
      refine ih ?_
      rcases List.mem_cons.mp h with h1 | h2
      · exact absurd h1.symm hca
      · exact h2

lemma splitdrive_append (p : PyStr) : (splitdrive p).1 ++ (splitdrive p).2 = p := by
  match p with
  | [] => rfl
  | [c] => rfl
  | c0 :: c1 :: rest =>
    simp only [splitdrive]
    split
    · split
      · simp
      · split
        · simp
        · split
          · simp
          · exact List.take_append_drop _ _
    · split
      · simp
      · simp

lemma rsplitSep_append (r : PyStr) : (rsplitSep r).1 ++ (rsplitSep r).2 = r := by
  simp only [rsplitSep]
  rw [← List.reverse_append, List.takeWhile_append_dropWhile, List.reverse_reverse]

lemma rstripSeps_pref (l : PyStr) :
    rstripSeps l ++ (l.reverse.takeWhile (fun c => isSepChar c)).reverse = l := by
  simp only [rstripSeps]
  rw [← List.reverse_append, List.takeWhile_append_dropWhile, List.reverse_reverse]

lemma py_basename_no_sep (p : PyStr) : ∀ c ∈ py_basename p, isSepChar c = false := by
  intro c hc
  simp only [py_basename, py_split, rsplitSep, List.mem_reverse] at hc
  have := mem_takeWhile_sat hc
  simpa using this

lemma genCmdInit_no_identity (env : Env) (fs : PyStr → Bool) (sec : PyStr)
    (conf : String → Option PyStr) (h : conf "IdentityFile" = none) :
    genCmdInit env fs sec conf = Except.error PyErr.attributeError := by
  unfold genCmdInit
  rw [h]
  rfl

/-! ## Claim theorems -/

/-- C2: a configuration mapping with no `IdentityFile` key makes
`GenCmd.__init__` raise (`None.startswith('~')` is an `AttributeError`):
the key-file transform is applied unconditionally, so no host record is
produced for such a section. -/
theorem c2_no_identityfile_raises (env : Env) (fs : PyStr → Bool) (sec : PyStr)
    (conf : String → Option PyStr) (h : conf "IdentityFile" = none) :
    genCmdInit env fs sec conf = Except.error PyErr.attributeError :=
  genCmdInit_no_identity env fs sec conf h

/-- Witness for C2 at a concrete empty section. -/
theorem c2_no_identityfile_raises_witness :
    genCmdInit env0 fsAll (S "h") (fun _ => none) = Except.error PyErr.attributeError :=
  c2_no_identityfile_raises env0 fsAll (S "h") (fun _ => none) rfl

/-- C4: `trans_putty_keyfile_name` fails — with `ValueError`, Python's
invalid-argument error — exactly on the empty string, and returns normally
on every non-empty input. -/
theorem c4_putty_name_error_iff_empty (p : PyStr) :
    (trans_putty_keyfile_name p = Except.error PyErr.valueError ↔ p = [])
    ∧ (p ≠ [] → ∃ out, trans_putty_keyfile_name p = Except.ok out) := by
  cases p with
  | nil =>
    refine ⟨⟨fun _ => rfl, fun _ => rfl⟩, fun h => absurd rfl h⟩
  | cons c tl =>
    constructor
    · constructor
      · intro h
        simp [trans_putty_keyfile_name] at h
      · intro h
        exact absurd h (by simp)
    · intro _
      exact ⟨_, rfl⟩

/-- Witness for C4: the conjunction at the empty input and at `"a"`. -/
theorem c4_putty_name_error_iff_empty_witness :
    trans_putty_keyfile_name [] = Except.error PyErr.valueError
    ∧ ∃ out, trans_putty_keyfile_name (S "a") = Except.ok out :=
  ⟨(c4_putty_name_error_iff_empty []).1.mpr rfl,
   (c4_putty_name_error_iff_empty (S "a")).2 (by decide)⟩

/-- C9: writing the live config target: the write event is always last;
when a file already exists there, the first event is the copy to the
timestamped backup path `<original>.bak-<YYYYMMDD-HHMMSS>`; and when that
copy fails, a warning is printed and the write of the live target still
occurs. -/
theorem c9_backup_then_write (env : Env) (isfile copyFails : Bool) (now : DateTimeVal)
    (errText : PyStr) (lines : List PyStr) :
    (mainWriteUserCfg env isfile copyFails now errText lines).getLast?
        = some (FsEvent.writeFile (USER_SSH_CFG_FILE env) lines)
    ∧ (isfile = true →
        (mainWriteUserCfg env isfile copyFails now errText lines).head?
          = some (FsEvent.copyAttempt (USER_SSH_CFG_FILE env)
              (USER_SSH_CFG_FILE env ++ S ".bak-" ++ strftimeTs now)))
    ∧ (isfile = true → copyFails = true →
        FsEvent.printMsg (S "Warning: failed to backup " ++ USER_SSH_CFG_FILE env
            ++ S ": " ++ errText)
          ∈ mainWriteUserCfg env isfile copyFails now errText lines
        ∧ FsEvent.writeFile (USER_SSH_CFG_FILE env) lines
            ∈ mainWriteUserCfg env isfile copyFails now errText lines) := by
  cases isfile <;> cases copyFails <;>
    simp [mainWriteUserCfg]

/-- Witness for C9 with an existing live config and a failing backup. -/
theorem c9_backup_then_write_witness :
    (mainWriteUserCfg env0 true true dt0 (S "e") [S "x"]).getLast?
      = some (FsEvent.writeFile (USER_SSH_CFG_FILE env0) [S "x"])
    ∧ (mainWriteUserCfg env0 true true dt0 (S "e") [S "x"]).head?
      = some (FsEvent.copyAttempt (USER_SSH_CFG_FILE env0)
          (USER_SSH_CFG_FILE env0 ++ S ".bak-" ++ strftimeTs dt0))
    ∧ FsEvent.printMsg (S "Warning: failed to backup " ++ USER_SSH_CFG_FILE env0
        ++ S ": " ++ S "e") ∈ mainWriteUserCfg env0 true true dt0 (S "e") [S "x"] := by
  have h := c9_backup_then_write env0 true true dt0 (S "e") [S "x"]
  exact ⟨h.1, h.2.1 rfl, (h.2.2 rfl rfl).1⟩

/-- C10: `FixUpper.get` returns the display-cased value when the key is
present in the `upper` section (presence per `configparser`'s
case-normalised lookup), and is the identity on every absent key. -/
theorem c10_fixupper_identity_on_absent (upper : PyStr → Option PyStr) (k : PyStr) :
    (∀ v, upper (strLower k) = some v → fixUpperGet upper k = v)
    ∧ (upper (strLower k) = none → fixUpperGet upper k = k) := by
  constructor
  · intro v hv
    simp [fixUpperGet, hv]
  · intro hv
    simp [fixUpperGet, hv]

/-- Witness for C10: one present key, one absent key. -/
theorem c10_fixupper_identity_on_absent_witness :
    fixUpperGet c10Upper (S "hostname") = S "HostName"
    ∧ fixUpperGet c10Upper (S "port") = S "port" :=
  ⟨(c10_fixupper_identity_on_absent c10Upper (S "hostname")).1 (S "HostName") (by decide),
   (c10_fixupper_identity_on_absent c10Upper (S "port")).2 (by decide)⟩

lemma rpartition_spec (f : PyStr) :
    (if !(rpartitionDot f).2.1.isEmpty then (rpartitionDot f).1 else f) ++ S ".ppk"
      = if '.' ∈ f then keepThroughLastDot f ++ S "ppk" else f ++ S ".ppk" := by
  by_cases hdot : '.' ∈ f
  · have hrev : '.' ∈ f.reverse := List.mem_reverse.mpr hdot
    obtain ⟨t, ht⟩ := dropWhile_ne_cons '.' f.reverse hrev
    have hlen : ¬ (f.reverse.takeWhile (fun c => c != '.')).length = f.length := by
      intro hleq
      have h2 : (f.reverse.takeWhile (fun c => c != '.')).length = f.reverse.length := by
        rw [hleq, List.length_reverse]
      have h3 := (takeWhile_length_eq_iff f.reverse).mp h2 '.' hrev
      simp at h3
    have hbase : ((f.reverse.dropWhile (fun c => c != '.')).drop 1).reverse = t.reverse := by
      rw [ht]
      rfl
    have hkeep : keepThroughLastDot f = t.reverse ++ ['.'] := by
      simp only [keepThroughLastDot]
      rw [ht, List.reverse_cons]
    rw [if_pos hdot, hkeep]
    simp only [rpartitionDot]
    rw [if_neg hlen]
    simp only [hbase, List.isEmpty_cons, Bool.not_false, if_pos rfl]
    rw [List.append_assoc]
    rfl
  · have hall : ∀ c ∈ f.reverse, (c != '.') = true := by
      intro c hc
      refine bne_iff_ne.mpr (fun e => hdot ?_)
      rw [← e]
      exact List.mem_reverse.mp hc
    have hlen : (f.reverse.takeWhile (fun c => c != '.')).length = f.length := by
      rw [(takeWhile_length_eq_iff f.reverse).mpr hall, List.length_reverse]
    rw [if_neg hdot]
    simp only [rpartitionDot]
    rw [if_pos hlen]
    rfl

/-- C3: `trans_putty_keyfile_name` keeps the directory component and maps
the filename by the specification's rule: a one-dot dotfile name gains
`.ppk` whole; otherwise the suffix after the last dot, if any, is replaced
by `ppk`, and a dotless name gains `.ppk`; including the four concrete
examples of the specification. -/
theorem c3_putty_name_shape (p : PyStr) (h : p ≠ []) :
    trans_putty_keyfile_name p
      = Except.ok (py_join (py_dirname p) (specPuttyFileName (py_basename p)))
    ∧ trans_putty_keyfile_name (S "id_rsa") = Except.ok (S "id_rsa.ppk")
    ∧ trans_putty_keyfile_name (S ".ssh") = Except.ok (S ".ssh.ppk")
    ∧ trans_putty_keyfile_name (S "key.pub") = Except.ok (S "key.ppk")
    ∧ trans_putty_keyfile_name (S "noext") = Except.ok (S "noext.ppk") := by
  refine ⟨?_, rfl, rfl, rfl, rfl⟩
  have hne : ¬ p.isEmpty = true := by simpa using h
  simp only [trans_putty_keyfile_name]
  rw [if_neg hne]
  have hcond : ((headIs '.' (py_basename p) && (py_basename p).count '.' == 1) = true)
      ↔ (headIs '.' (py_basename p) = true ∧ (py_basename p).count '.' = 1) := by
    simp
  by_cases hb : headIs '.' (py_basename p) = true ∧ (py_basename p).count '.' = 1
  · rw [if_pos (hcond.mpr hb)]
    simp only [specPuttyFileName]
    rw [if_pos hb]
  · rw [if_neg (fun hh => hb (hcond.mp hh))]
    simp only [specPuttyFileName]
    rw [if_neg hb, ← rpartition_spec (py_basename p)]

/-- Witness for C3 at the input `key.pub`. -/
theorem c3_putty_name_shape_witness :
    trans_putty_keyfile_name (S "key.pub")
      = Except.ok (py_join (py_dirname (S "key.pub"))
          (specPuttyFileName (py_basename (S "key.pub")))) :=
  (c3_putty_name_shape (S "key.pub") (by decide)).1

/-- C5: the Tera-Term proxy clause equals the specification's clause for
every host record ("set" read as truthiness), and the two concrete proxy
examples of the specification hold on the full rendering. -/
theorem c5_tth_proxy_clause (r : HostRecord) :
    tthProxyArg r = specTthProxyClause r
    ∧ containsStr (S "-proxy socks5://p.example:1080") (tth tthSocksRec) = true
    ∧ containsStr (S "-noproxy") (tth tthNoneRec) = true := by
  refine ⟨?_, by decide, by decide⟩
  by_cases h1 : pyTruthy r.proxy_type = true
  · by_cases h2 : r.proxy_type = some (S "none")
    · simp [tthProxyArg, specTthProxyClause, h1, h2]
    · simp [tthProxyArg, specTthProxyClause, h1, h2]
  · have h1f : pyTruthy r.proxy_type = false := by simpa using h1
    simp [tthProxyArg, specTthProxyClause, h1f]

/-- C6: the Tera-Term auth clause has the specification's shape — base
clause `/auth=`/`/ask4passwd`, then `/user=`, `/keyfile=`, `/password=`
appended independently, in that fixed order, space-separated — and the
launch line places the proxy clause before `{host}:{port}`, the ssh-mode
flag and the auth clause. -/
theorem c6_tth_auth_clause_and_layout (r : HostRecord) :
    tthAuthArg r = specTthAuthClause r
    ∧ tth r = S "@echo off" ++ LS ++ S "start \"\" " ++ tthExefile ++ S " " ++ tthProxyArg r
        ++ S " " ++ pyFStr r.host ++ S ":" ++ pyFStr r.port ++ S " /ssh " ++ specTthAuthClause r
        ++ S " & " ++ LS :=
  ⟨rfl, rfl⟩

lemma startsWithStr_append_self (l t : PyStr) : startsWithStr l (l ++ t) = true := by
  induction l with
  | nil => rfl
  | cons c tl ih => simp [startsWithStr, ih]

lemma containsStr_of_startsWith (n h : PyStr) (hs : startsWithStr n h = true) :
    containsStr n h = true := by
  cases h with
  | nil =>
    cases n with
    | nil => rfl
    | cons c tl => simp [startsWithStr] at hs
  | cons c tl => simp [containsStr, hs]

lemma containsStr_append_left (n pre h : PyStr) (hc : containsStr n h = true) :
    containsStr n (pre ++ h) = true := by
  induction pre with
  | nil => simpa using hc
  | cons c tl ih => simp [containsStr, ih]

lemma trans_putty_ok_of_ne_nil (p : PyStr) (h : p ≠ []) :
    ∃ out, trans_putty_keyfile_name p = Except.ok out := by
  cases p with
  | nil => exact absurd rfl h
  | cons c tl => exact ⟨_, rfl⟩

/-- C7: the PuTTY rendering supports only the `http` proxy type: with
`http` the proxy clause carries a `-proxycmd` flag; with any other proxy
type (or none) the proxy clause is empty; the whole script is the fixed
skeleton with the credential `set CORKSCREW_AUTH=` line present before
the launch line exactly when the proxy type is `http` and a proxy user is
present; and on the specification's `socks5` example no `-proxycmd`
occurs anywhere in the output. -/
theorem c7_pth_proxy_http_only (r : HostRecord) :
    (r.proxy_type = some (S "http") → containsStr (S "-proxycmd") (pthProxyArg r) = true)
    ∧ (r.proxy_type ≠ some (S "http") → pthProxyArg r = [])
    ∧ (∃ kopt, pth r = Except.ok (S "@echo off" ++ LS
        ++ (if r.proxy_type = some (S "http") ∧ pyTruthy r.proxy_user = true then
              S "set CORKSCREW_AUTH=" ++ pyFStr r.proxy_user ++ S ":"
                ++ pyFStr r.proxy_password ++ LS
            else [])
        ++ S "start \"\" " ++ pthExefile ++ S " -ssh -noshare " ++ pthProxyArg r
        ++ pthTail r kopt))
    ∧ pth tthSocksRec = Except.ok pthSocksOut
    ∧ containsStr (S "-proxycmd") pthSocksOut = false := by
  have hcc : ((pyTruthy r.proxy_type = true ∧ r.proxy_type = some (S "http"))
        ∧ pyTruthy r.proxy_user = true)
      ↔ (r.proxy_type = some (S "http") ∧ pyTruthy r.proxy_user = true) := by
    constructor
    · exact fun hx => ⟨hx.1.2, hx.2⟩
    · exact fun hx => ⟨⟨by rw [hx.1]; decide, hx.1⟩, hx.2⟩
  refine ⟨?_, ?_, ?_, rfl, by decide⟩
  · intro hh
    have hcond : pyTruthy r.proxy_type = true ∧ r.proxy_type = some (S "http") :=
      ⟨by rw [hh]; decide, hh⟩
    simp only [pthProxyArg, if_pos hcond]
    rw [show (S " -proxycmd \"\\\"" : PyStr) = [' '] ++ (S "-proxycmd" ++ S " \"\\\"") from by decide]
    simp only [List.append_assoc]
    exact containsStr_append_left _ _ _
      (containsStr_of_startsWith _ _ (startsWithStr_append_self _ _))
  · intro hh
    simp only [pthProxyArg]
    rw [if_neg (fun hc => hh hc.2)]
  · by_cases hk : pyTruthy r.keyfile = true
    · cases hkv : r.keyfile with
      | none => rw [hkv] at hk; simp [pyTruthy] at hk
      | some k =>
        have hkne : k ≠ [] := by
          rw [hkv] at hk
          simpa [pyTruthy, List.isEmpty_iff] using hk
        obtain ⟨o, ho⟩ := trans_putty_ok_of_ne_nil k hkne
        refine ⟨some o, ?_⟩
        have hk2 : pyTruthy (some k) = true := by rw [← hkv]; exact hk
        simp only [pth, pthTail, hkv, hk2, pyFStr, ho, Except.map, hcc,
          List.append_assoc, if_true]
    · have hkf : pyTruthy r.keyfile = false := by simpa using hk
      refine ⟨none, ?_⟩
      simp only [pth, pthTail, hkf, Bool.false_eq_true, if_false, Except.map, hcc,
        List.append_assoc]

/-- Witness for C7: the `http` record produces a `-proxycmd` clause, the
`socks5` record an empty one. -/
theorem c7_pth_proxy_http_only_witness :
    containsStr (S "-proxycmd") (pthProxyArg rHttpW) = true
    ∧ pthProxyArg tthSocksRec = [] :=
  ⟨(c7_pth_proxy_http_only rHttpW).1 (by decide),
   (c7_pth_proxy_http_only tthSocksRec).2.1 (by decide)⟩

lemma finalizeJoin_ne_nil (d root pth2 : PyStr) (h : d ≠ [] ∨ root ≠ [] ∨ pth2 ≠ []) :
    finalizeJoin d root pth2 ≠ [] := by
  simp only [finalizeJoin]
  split
  · simp
  · intro hnil
    simp only [List.append_eq_nil] at hnil
    rcases h with h1 | h1 | h1 <;> simp_all

lemma py_join_out_ne_nil (b : PyStr) : py_join SSHKEY_OUT_DIR b ≠ [] := by
  have hout : splitroot SSHKEY_OUT_DIR = (S "C:", S "\\", S "0\\sshkey") := by decide
  rcases hsb : splitroot b with ⟨qd, qr, qp⟩
  simp only [py_join, hout, hsb]
  split_ifs with h1 h2 h3 h4
  · refine finalizeJoin_ne_nil _ _ _ (Or.inr (Or.inl ?_))
    intro hq
    subst hq
    simp at h1
  · refine finalizeJoin_ne_nil _ _ _ (Or.inr (Or.inl ?_))
    intro hq
    subst hq
    simp at h1
  · refine finalizeJoin_ne_nil _ _ _ (Or.inl ?_)
    intro hq
    subst hq
    simp at h3
  · refine finalizeJoin_ne_nil _ _ _ (Or.inl ?_)
    intro hq
    subst hq
    simp at h3
  · exact finalizeJoin_ne_nil _ _ _ (Or.inl (show (S "C:" : PyStr) ≠ [] from by decide))

lemma trans_keyfile_ok_ne_nil (env : Env) (fs : PyStr → Bool) (inp : Option PyStr)
    (out : PyStr) (h : trans_keyfile_path env fs inp = Except.ok out) : out ≠ [] := by
  cases inp with
  | none => simp [trans_keyfile_path] at h
  | some s =>
    simp only [trans_keyfile_path] at h
    by_cases hdir : py_dirname (resolveKeyPath env s) = SSHKEY_OUT_DIR
    · rw [if_neg (not_not_intro hdir)] at h
      injection h with h2
      subst h2
      intro hnil
      rw [hnil] at hdir
      exact absurd hdir (by decide)
    · rw [if_pos hdir] at h
      by_cases hfs : fs (resolveKeyPath env s) = true
      · rw [if_pos hfs] at h
        injection h with h2
        rw [← h2]
        exact py_join_out_ne_nil _
      · rw [if_neg hfs] at h
        exact absurd h (by simp)

/-- C1: for a registry section with no explicit `AuthType`, a successfully
constructed host record has auth type `publickey` when an `IdentityFile`
is present; with no `IdentityFile` the constructor raises instead (see
C2), so the `password`/unset branches hold vacuously for constructed
records. -/
theorem c1_auth_type_inference (env : Env) (fs : PyStr → Bool) (sec : PyStr)
    (conf : String → Option PyStr) (r : HostRecord)
    (hAuth : conf "AuthType" = none)
    (hok : genCmdInit env fs sec conf = Except.ok r) :
    ((conf "IdentityFile").isSome → r.auth_type = some (S "publickey"))
    ∧ (conf "IdentityFile" = none → pyTruthy (conf "Password") = true →
        r.auth_type = some (S "password"))
    ∧ (conf "IdentityFile" = none → pyTruthy (conf "Password") = false →
        r.auth_type = none) := by
  by_cases hid : conf "IdentityFile" = none
  · rw [genCmdInit_no_identity env fs sec conf hid] at hok
    exact absurd hok (by simp)
  · refine ⟨fun _ => ?_, fun hcon => absurd hcon hid, fun hcon => absurd hcon hid⟩
    simp only [genCmdInit] at hok
    cases htr : trans_keyfile_path env fs (conf "IdentityFile") with
    | error e =>
      rw [htr] at hok
      exact absurd hok (by simp)
    | ok kf =>
      rw [htr] at hok
      have hkf : (!kf.isEmpty) = true := by
        have := trans_keyfile_ok_ne_nil env fs _ kf htr
        simpa using this
      rw [hAuth] at hok
      simp only [pyTruthy, Bool.not_false, if_true, hkf] at hok
      injection hok with h2
      rw [← h2]

/-- Witness for C1: a section with only an `IdentityFile` yields a record
with auth type `publickey`. -/
theorem c1_auth_type_inference_witness :
    genCmdInit env0 fsAll (S "h1") c1Conf = Except.ok c1Rec
    ∧ c1Rec.auth_type = some (S "publickey") := by
  have h := c1_auth_type_inference env0 fsAll (S "h1") c1Conf c1Rec (by decide) rfl
  exact ⟨rfl, h.1 (by decide)⟩

lemma py_dirname_shape (p : PyStr) :
    ∃ h2 t, py_dirname p = (splitdrive p).1 ++ h2 ∧ h2 ++ t = (splitdrive p).2 := by
  simp only [py_dirname, py_split]
  by_cases he : (rstripSeps (rsplitSep (splitdrive p).2).1).isEmpty = true
  · refine ⟨(rsplitSep (splitdrive p).2).1, (rsplitSep (splitdrive p).2).2, ?_,
      rsplitSep_append _⟩
    rw [if_pos he]
  · refine ⟨rstripSeps (rsplitSep (splitdrive p).2).1,
      ((rsplitSep (splitdrive p).2).1.reverse.takeWhile (fun c => isSepChar c)).reverse
        ++ (rsplitSep (splitdrive p).2).2, ?_, ?_⟩
    · rw [if_neg he]
    · rw [← List.append_assoc, rstripSeps_pref, rsplitSep_append]

lemma splitdrive_colon (c0 : Char) (rest : PyStr) (h0 : isSepChar c0 = false) :
    splitdrive (c0 :: ':' :: rest) = ([c0, ':'], rest) := by
  have hU : ¬ (isSepChar c0 && isSepChar ':' && !headIsSep rest) = true := by
    simp [h0]
  simp only [splitdrive, if_neg hU]
  rfl

lemma splitdrive_drive_shape (p : PyStr) (hne : (splitdrive p).1 ≠ []) :
    isSepChar ((splitdrive p).1.headD ' ') = true
    ∨ ∃ c0 rest, p = c0 :: ':' :: rest ∧ splitdrive p = ([c0, ':'], rest) := by
  match p with
  | [] => exact absurd rfl hne
  | [c] => exact absurd rfl hne
  | c0 :: c1 :: rest =>
    by_cases hU : (isSepChar c0 && isSepChar c1 && !headIsSep rest) = true
    · have hc0 : isSepChar c0 = true := by
        simp only [Bool.and_eq_true] at hU
        exact hU.1.1
      left
      cases hf1 : findSepFrom (c0 :: c1 :: rest) 2 with
      | none =>
        have hsd : splitdrive (c0 :: c1 :: rest) = ([], c0 :: c1 :: rest) := by
          simp only [splitdrive, if_pos hU, hf1]
        rw [hsd] at hne
        exact absurd rfl hne
      | some index =>
        cases hf2 : findSepFrom (c0 :: c1 :: rest) (index + 1) with
        | none =>
          have hsd : splitdrive (c0 :: c1 :: rest) = (c0 :: c1 :: rest, []) := by
            simp only [splitdrive, if_pos hU, hf1, hf2]
          rw [hsd]
          exact hc0
        | some index2 =>
          by_cases hi : index2 = index + 1
          · have hsd : splitdrive (c0 :: c1 :: rest) = ([], c0 :: c1 :: rest) := by
              simp only [splitdrive, if_pos hU, hf1, hf2]
              rw [if_pos (by simpa using hi)]
            rw [hsd] at hne
            exact absurd rfl hne
          · cases index2 with
            | zero =>
              have hsd : splitdrive (c0 :: c1 :: rest)
                  = ((c0 :: c1 :: rest).take 0, (c0 :: c1 :: rest).drop 0) := by
                simp only [splitdrive, if_pos hU, hf1, hf2]
                rw [if_neg (by simp [hi])]
              rw [hsd] at hne
              exact absurd rfl hne
            | succ n =>
              have hsd : splitdrive (c0 :: c1 :: rest)
                  = ((c0 :: c1 :: rest).take (n + 1), (c0 :: c1 :: rest).drop (n + 1)) := by
                simp only [splitdrive, if_pos hU, hf1, hf2]
                rw [if_neg (by simpa using hi)]
              rw [hsd]
              simpa [List.take_succ_cons] using hc0
    · by_cases hc1 : (c1 == ':') = true
      · right
        have hc1e : c1 = ':' := by simpa using hc1
        subst hc1e
        refine ⟨c0, rest, rfl, ?_⟩
        simp only [splitdrive, if_neg hU]
        rfl
      · have hsd : splitdrive (c0 :: c1 :: rest) = ([], c0 :: c1 :: rest) := by
          simp only [splitdrive, if_neg hU]
          rw [if_neg hc1]
        rw [hsd] at hne
        exact absurd rfl hne

lemma isabs_of_dirname_out (p : PyStr) (h : py_dirname p = SSHKEY_OUT_DIR) :
    py_isabs p = true := by
  obtain ⟨h2, t, e1, e2⟩ := py_dirname_shape p
  rw [e1] at h
  by_cases hd : (splitdrive p).1 = []
  · exfalso
    rw [hd, List.nil_append] at h
    have hr : (splitdrive p).2 = SSHKEY_OUT_DIR ++ t := by
      rw [← e2, h]
    have hp : p = SSHKEY_OUT_DIR ++ t := by
      rw [← splitdrive_append p, hd, List.nil_append, hr]
    have hpc : p = 'C' :: ':' :: (S "\\0\\sshkey" ++ t) := by
      rw [hp, show SSHKEY_OUT_DIR = 'C' :: ':' :: S "\\0\\sshkey" from by decide]
      rfl
    have hsd := splitdrive_colon 'C' (S "\\0\\sshkey" ++ t) (by decide)
    rw [hpc, hsd] at hd
    simp at hd
  · rcases splitdrive_drive_shape p hd with hsep | ⟨c0, rest, hp, hsd⟩
    · exfalso
      cases hdv : (splitdrive p).1 with
      | nil => exact hd hdv
      | cons a d2 =>
        rw [hdv] at h
        have ha : a = 'C' := by
          rw [show SSHKEY_OUT_DIR = 'C' :: ':' :: S "\\0\\sshkey" from by decide] at h
          have := congrArg (fun l => l.headD ' ') h
          simpa using this
        rw [hdv, ha] at hsep
        simp [isSepChar] at hsep
    · rw [hsd] at h
      rw [show SSHKEY_OUT_DIR = 'C' :: ':' :: S "\\0\\sshkey" from by decide] at h
      simp only [List.cons_append, List.nil_append, List.cons.injEq] at h
      obtain ⟨hc0, -, hh2⟩ := h
      rw [hsd] at e2
      rw [hh2] at e2
      have e3 : S "\\0\\sshkey" ++ t = rest := e2
      have hrest : rest = '\\' :: (S "0\\sshkey" ++ t) := by
        rw [← e3, show (S "\\0\\sshkey" : PyStr) = '\\' :: S "0\\sshkey" from by decide]
        rfl
      simp only [py_isabs, hsd, hrest, headIsSep]
      rfl

lemma splitroot_plain (b : PyStr) (hsep : ∀ c ∈ b, isSepChar c = false)
    (hnd : (splitdrive b).1 = []) : splitroot b = ([], [], b) := by
  match b with
  | [] => rfl
  | c0 :: tl =>
    have h0 : isSepChar c0 = false := hsep c0 (by simp)
    cases tl with
    | nil =>
      simp only [splitroot]
      rw [if_neg (by simp [h0])]
    | cons c1 tl2 =>
      have hc1 : ¬ (c1 == ':') = true := by
        intro hb
        have hc1e : c1 = ':' := by simpa using hb
        rw [hc1e] at hnd
        rw [splitdrive_colon c0 tl2 h0] at hnd
        simp at hnd
      simp only [splitroot]
      rw [if_neg (by simp [h0]), if_neg hc1]

lemma py_join_out_plain (b : PyStr) (hsep : ∀ c ∈ b, isSepChar c = false)
    (hnd : (splitdrive b).1 = []) :
    py_join SSHKEY_OUT_DIR b = S "C:\\0\\sshkey\\" ++ b := by
  have hout : splitroot SSHKEY_OUT_DIR = (S "C:", S "\\", S "0\\sshkey") := by decide
  have hb := splitroot_plain b hsep hnd
  simp only [py_join, hout, hb]
  rfl

lemma dirname_isabs_out_append (b : PyStr) (hsep : ∀ c ∈ b, isSepChar c = false) :
    py_dirname (S "C:\\0\\sshkey\\" ++ b) = SSHKEY_OUT_DIR
    ∧ py_isabs (S "C:\\0\\sshkey\\" ++ b) = true := by
  have hx : (S "C:\\0\\sshkey\\" ++ b : PyStr) = 'C' :: ':' :: (S "\\0\\sshkey\\" ++ b) := by
    rw [show (S "C:\\0\\sshkey\\" : PyStr) = 'C' :: ':' :: S "\\0\\sshkey\\" from by decide]
    rfl
  have hsd : splitdrive (S "C:\\0\\sshkey\\" ++ b) = (['C', ':'], S "\\0\\sshkey\\" ++ b) := by
    rw [hx]
    exact splitdrive_colon 'C' _ (by decide)
  constructor
  · have hrev : (S "\\0\\sshkey\\" ++ b).reverse = b.reverse ++ (S "\\0\\sshkey\\").reverse := by
      rw [List.reverse_append]
    have hsat : ∀ c ∈ b.reverse, (!isSepChar c) = true := by
      intro c hc
      simp [hsep c (List.mem_reverse.mp hc)]
    have hdw : ((S "\\0\\sshkey\\" ++ b).reverse.dropWhile (fun c => !isSepChar c))
        = (S "\\0\\sshkey\\").reverse := by
      rw [hrev, dropWhile_append_sat _ _ hsat]
      decide
    simp only [py_dirname, py_split, hsd, rsplitSep, hdw, List.reverse_reverse]
    rw [show rstripSeps (S "\\0\\sshkey\\") = S "\\0\\sshkey" from by decide]
    rfl
  · simp only [py_isabs, hsd]
    rw [show (S "\\0\\sshkey\\" ++ b : PyStr) = '\\' :: (S "0\\sshkey\\" ++ b) from by
      rw [show (S "\\0\\sshkey\\" : PyStr) = '\\' :: S "0\\sshkey\\" from by decide]; rfl]
    rfl

/-- C8 (amended): for every key-file reference accepted by
`trans_keyfile_path` whose resolved base name does not itself begin with a
Windows drive specifier (second character `:`), the returned path is an
absolute path whose containing directory is the fixed key-output
directory, and a copy is made there — the result is
`join(SSHKEY_OUT_DIR, basename)` and the source was read — whenever the
resolved path's directory differs from it.  The drive-specifier proviso is
forced by `ntpath.join`'s drive-reset rule (see the counterexample). -/
theorem c8_keyfile_in_out_dir_amended (env : Env) (fs : PyStr → Bool) (s out : PyStr)
    (hok : trans_keyfile_path env fs (some s) = Except.ok out)
    (hnd : (splitdrive (py_basename (resolveKeyPath env s))).1 = []) :
    (py_dirname out = SSHKEY_OUT_DIR ∧ py_isabs out = true)
    ∧ (py_dirname (resolveKeyPath env s) ≠ SSHKEY_OUT_DIR →
        out = py_join SSHKEY_OUT_DIR (py_basename (resolveKeyPath env s))
        ∧ fs (resolveKeyPath env s) = true) := by
  simp only [trans_keyfile_path] at hok
  by_cases hdir : py_dirname (resolveKeyPath env s) = SSHKEY_OUT_DIR
  · rw [if_neg (not_not_intro hdir)] at hok
    injection hok with h2
    subst h2
    exact ⟨⟨hdir, isabs_of_dirname_out _ hdir⟩, fun hcc => absurd hdir hcc⟩
  · rw [if_pos hdir] at hok
    by_cases hfs : fs (resolveKeyPath env s) = true
    · rw [if_pos hfs] at hok
      injection hok with h2
      subst h2
      have hsep := py_basename_no_sep (resolveKeyPath env s)
      have hj := py_join_out_plain (py_basename (resolveKeyPath env s)) hsep hnd
      obtain ⟨hA, hB⟩ := dirname_isabs_out_append (py_basename (resolveKeyPath env s)) hsep
      refine ⟨⟨?_, ?_⟩, fun _ => ⟨rfl, hfs⟩⟩
      · rw [hj]
        exact hA
      · rw [hj]
        exact hB
    · rw [if_neg hfs] at hok
      exact absurd hok (by simp)

/-- C8 counterexample: a source key file whose base name `a:b` carries a
drive specifier.  `ntpath.join(SSHKEY_OUT_DIR, 'a:b')` discards the first
path entirely, so `trans_keyfile_path` returns the relative path `a:b`,
which is not absolute and whose directory `a:` is not the key-output
directory — refuting the claim as stated. -/
theorem c8_keyfile_in_out_dir_counterexample :
    trans_keyfile_path env0 fsAll (some (S "C:\\keys\\a:b")) = Except.ok (S "a:b")
    ∧ ¬ (py_dirname (S "a:b") = SSHKEY_OUT_DIR ∧ py_isabs (S "a:b") = true) :=
  ⟨rfl, by decide⟩

/-- Witness for the amended C8 at the relative reference `id_rsa`. -/
theorem c8_keyfile_in_out_dir_amended_witness :
    trans_keyfile_path env0 fsAll (some (S "id_rsa")) = Except.ok (S "C:\\0\\sshkey\\id_rsa")
    ∧ py_dirname (S "C:\\0\\sshkey\\id_rsa") = SSHKEY_OUT_DIR
    ∧ py_isabs (S "C:\\0\\sshkey\\id_rsa") = true := by
  have h := c8_keyfile_in_out_dir_amended env0 fsAll (S "id_rsa") (S "C:\\0\\sshkey\\id_rsa")
    rfl (by decide)
  exact ⟨rfl, h.1.1, h.1.2⟩

end Mkssh
